import Mathlib

/-!
Verification of the traveler-integrated query service (`serve.py`) against its
natural-language specification.  The definitions below are a shallow embedding
of the request handlers `histogram`, `intervals` and `intervalTrace` (and the
generators they return), together with the two dataset checks
`checkDatasetExistence` / `checkDatasetHasIntervals`.  Timestamps (Python
floats that are only ever compared) are modelled as rationals; Python dicts
keyed by strings are modelled as association lists; a raised `HTTPException`
becomes an explicit error value; an uncaught Python exception inside a
streaming generator becomes an error flag carried next to the chunks that were
already yielded.
-/

namespace Traveler

/-- The `lastParentInterval` sub-record of an interval: the parent's id,
location and end timestamp stored redundantly on the child
(used at lines 306 and 320-325 of serve.py). -/
structure ParentLink where
  id : String
  location : String
  endTimestamp : Rat
deriving DecidableEq, Repr

/-- One interval record as consumed by serve.py: `intervalId`, `Location`,
`enter.Timestamp`, `leave.Timestamp` and the optional `lastParentInterval`
link.  Other annotation fields carried from ingestion are never read by the
handlers under verification and are omitted. -/
structure Interval where
  intervalId : String
  location : String
  enter : Rat
  leave : Rat
  lastParentInterval : Option ParentLink
deriving DecidableEq, Repr

/-- The interval store of one dataset (`db[label]['intervals']`): a map from
interval id to interval record, modelled as an association list. -/
abbrev IvStore := List (String × Interval)

/-- One entry of a range index: the indexed span plus the payload `i.data`
holding the interval id (used at line 251 of serve.py). -/
structure IndexEntry where
  enter : Rat
  leave : Rat
  data : String
deriving DecidableEq, Repr

/-- Modelled from the spec: a RangeIndex (the index implementation lives in the
`database` module, which is not under src/).  Per section 4.1 it is a set of
(span, intervalId) pairs with deterministic enumeration order; we keep them in
a list in that order. -/
structure RangeIndex where
  entries : List IndexEntry
deriving DecidableEq, Repr

/-- Modelled from the spec: `iterOverlap(begin, end)` per section 4.1 — an
entry is produced iff `enter < end` and `leave > begin`, in the index's
deterministic order. -/
def RangeIndex.iterOverlap (idx : RangeIndex) (b e : Rat) : List IndexEntry :=
  idx.entries.filter (fun i => decide (i.enter < e) && decide (b < i.leave))

/-- The four index families of `db[label]['intervalIndexes']`: `main`,
`locations`, `primitives` and `both` (location, then primitive). -/
structure IndexSet where
  main : RangeIndex
  locations : List (String × RangeIndex)
  primitives : List (String × RangeIndex)
  both : List (String × List (String × RangeIndex))
deriving DecidableEq, Repr

/-- Dataset metadata: `meta['intervalDomain']`, the global time domain
`(minTimestamp, maxTimestamp)` used for defaulting omitted bounds. -/
structure DatasetMeta where
  intervalDomain : Rat × Rat
deriving DecidableEq, Repr

/-- One dataset dict `db[label]`.  The keys `intervals` and `intervalIndexes`
may be absent (dataset created but never given interval data), hence the
`Option`s; `checkDatasetHasIntervals` tests exactly their presence. -/
structure Dataset where
  meta : DatasetMeta
  intervals : Option IvStore
  intervalIndexes : Option IndexSet
deriving DecidableEq, Repr

/-- The global database: labels mapped to datasets. -/
abbrev Db := List (String × Dataset)

/-- The `HTTPException`s raised by the three query handlers, as structured
values; `detail` recovers the exact detail string of the source. -/
inductive HTTPError where
  | datasetNotFound
  | noIntervalData
  | noLocationIndex (location : String)
  | noBothIndex (location primitive : String)
  | noPrimitiveIndex (primitive : String)
deriving DecidableEq, Repr

/-- Status code of each modelled `HTTPException` (all are 404 in the source). -/
def HTTPError.statusCode : HTTPError → Nat
  | _ => 404

/-- Detail string of each modelled `HTTPException`, exactly as in serve.py. -/
def HTTPError.detail : HTTPError → String
  | .datasetNotFound => "Dataset not found"
  | .noIntervalData => "Dataset does not contain indexed interval data"
  | .noLocationIndex l => "No index for location: " ++ l
  | .noBothIndex l p => "No index for location, primitive combination: " ++ l ++ ", " ++ p
  | .noPrimitiveIndex p => "No index for primitive: " ++ p

/-- A request-handling failure: either an explicit `HTTPException` or an
uncaught Python `KeyError` raised while the handler body runs (which FastAPI
would surface as a 500, not as one of the explicit conditions). -/
inductive ServeError where
  | http (e : HTTPError)
  | keyError
deriving DecidableEq, Repr

/-- An uncaught exception inside a streaming generator, raised after the
response has started: `keyError` for a failed dict lookup; `nonTermination`
marks a parent chain the Python loop would follow forever (our model runs on
fuel). -/
inductive GenError where
  | keyError
  | nonTermination
deriving DecidableEq, Repr

/-- Histogram mode (`HistogramMode` enum of serve.py). -/
inductive HistogramMode where
  | utilization
  | count
deriving DecidableEq, Repr

/-- The resolved histogram invocation: which index `modeHelper` is applied to
and with which arguments.  The computation itself
(`compute…Histogram` in the `database` module) is not under src/, so the
handler model returns the invocation record. -/
structure HistogramCall where
  index : RangeIndex
  mode : HistogramMode
  bins : Int
  winBegin : Rat
  winEnd : Rat
deriving DecidableEq, Repr

/-- The histogram handler, lines 198-233 of serve.py: dataset checks, window
defaulting, then selector resolution exactly in source order (location
membership first, then the `both[location][primitive]` path, then the
primitive-only path, finally the main index).  The unguarded
`both[location]` access of line 225 is a potential `KeyError`. -/
def histogram (db : Db) (label : String) (mode : HistogramMode) (bins : Int)
    (b e : Option Rat) (location primitive : Option String) :
    Except ServeError HistogramCall :=
  match List.lookup label db with
  | none => .error (.http .datasetNotFound)
  | some ds =>
    match ds.intervals, ds.intervalIndexes with
    | some _, some idx =>
      let wb := b.getD ds.meta.intervalDomain.1
      let we := e.getD ds.meta.intervalDomain.2
      match location with
      | some loc =>
        match List.lookup loc idx.locations with
        | none => .error (.http (.noLocationIndex loc))
        | some locIdx =>
          match primitive with
          | some prim =>
            match List.lookup loc idx.both with
            | none => .error .keyError
            | some bl =>
              match List.lookup prim bl with
              | none => .error (.http (.noBothIndex loc prim))
              | some bIdx => .ok ⟨bIdx, mode, bins, wb, we⟩
          | none => .ok ⟨locIdx, mode, bins, wb, we⟩
      | none =>
        match primitive with
        | some prim =>
          match List.lookup prim idx.primitives with
          | none => .error (.http (.noPrimitiveIndex prim))
          | some pIdx => .ok ⟨pIdx, mode, bins, wb, we⟩
        | none => .ok ⟨idx.main, mode, bins, wb, we⟩
    | _, _ => .error (.http .noIntervalData)

/-- Modelled from the spec: serialization of one interval record by the
standard library's `json.dumps` (line 251); its exact text is immaterial to
every claim, only that one record becomes one chunk. -/
def jsonDumpsInterval (iv : Interval) : String :=
  "\x7b\"intervalId\": \"" ++ iv.intervalId ++ "\", \"Location\": \"" ++ iv.location ++
  "\", \"enter\": " ++ toString iv.enter.num ++ "/" ++ toString iv.enter.den ++
  ", \"leave\": " ++ toString iv.leave.num ++ "/" ++ toString iv.leave.den ++ "\x7d"

/-- The body of `intervalGenerator` (lines 245-253) after the opening bracket:
walks the overlap enumeration with the `firstItem` flag, yielding a comma
before every record except the first; a failed store lookup
(`db[label]['intervals'][i.data]`) aborts the stream with a `KeyError` after
the chunks already produced. -/
def intervalChunksGo (store : IvStore) : List IndexEntry → Bool → List String × Option GenError
  | [], _ => (["]"], none)
  | i :: rest, firstItem =>
    match List.lookup i.data store with
    | none => ([], some .keyError)
    | some iv =>
      let tail := intervalChunksGo store rest false
      (if firstItem then jsonDumpsInterval iv :: tail.1
       else "," :: jsonDumpsInterval iv :: tail.1, tail.2)

/-- `intervalGenerator` of the intervals handler: the chunk sequence a client
receives (with an error flag when the generator raises mid-stream). -/
def intervalGenerator (store : IvStore) (idx : IndexSet) (b e : Rat) :
    List String × Option GenError :=
  let tail := intervalChunksGo store (idx.main.iterOverlap b e) true
  ("[" :: tail.1, tail.2)

/-- The intervals handler, lines 235-254: existence and index checks, window
defaulting, then the streaming generator. -/
def intervals (db : Db) (label : String) (b e : Option Rat) :
    Except ServeError (List String × Option GenError) :=
  match List.lookup label db with
  | none => .error (.http .datasetNotFound)
  | some ds =>
    match ds.intervals, ds.intervalIndexes with
    | some store, some idx =>
      let wb := b.getD ds.meta.intervalDomain.1
      let we := e.getD ds.meta.intervalDomain.2
      .ok (intervalGenerator store idx wb we)
    | _, _ => .error (.http .noIntervalData)

/-- Items yielded by the trace generator (the enclosing brackets of the JSON
array are implicit): `directId` is the bare first-position id of line 280,
`commaId` the comma-prefixed id of lines 299 and 326, and the two boundary
markers are the metadata objects of lines 287-292 and 320-325. -/
inductive TraceItem where
  | directId (id : String)
  | commaId (id : String)
  | beyondRight (id location : String) (beginTimestamp : Rat)
  | beyondLeft (id location : String) (endTimestamp : Rat)
deriving DecidableEq, Repr

/-- How the trace loop of lines 273-315 exits: by reaching a call-stack root
(line 315), by the left-boundary break of line 312 (carrying the node the walk
stopped on), by a `KeyError` on a parent lookup (line 307), or — in Python —
not at all on a cyclic parent chain (`fuelOut` in the fuel-based model). -/
inductive WalkExit where
  | root
  | brokeLeft (stop : Interval)
  | keyErr
  | fuelOut
deriving DecidableEq, Repr

/-- Lines 276-294: the right-boundary block guarded by
`oneBeyondRight is not None and intervalObj['enter']['Timestamp'] <= end`.
Returns the items it yields and the new value of `oneBeyondRight` (reset to
`None` once the block has run). -/
def rightBoundaryStep (target : Interval) (e : Rat) (cur : Interval)
    (obr : Option Interval) : List TraceItem × Option Interval :=
  match obr with
  | some o =>
    if cur.enter ≤ e then
      (if o = target then [TraceItem.directId target.intervalId]
       else [TraceItem.beyondRight o.intervalId o.location o.enter], none)
    else ([], some o)
  | none => ([], none)

/-- Lines 296-299: yield the current interval's id unless it is the target. -/
def currentIdStep (target cur : Interval) : List TraceItem :=
  if cur = target then [] else [TraceItem.commaId cur.intervalId]

/-- The `while intervalObj is not None` loop of lines 273-315, as a fuel-based
recursion over `(intervalObj, oneBeyondRight)`.  Each iteration runs the
right-boundary block, yields the current id, then either follows
`lastParentInterval` (updating `oneBeyondRight` to the current node while it
is still tracked, per lines 303-305, and breaking when the parent's leave
timestamp is `< begin`, per lines 309-312) or exits at a root. -/
def traceWalkAux (store : IvStore) (target : Interval) (b e : Rat) :
    Nat → Interval → Option Interval → List TraceItem × WalkExit
  | 0, _, _ => ([], WalkExit.fuelOut)
  | Nat.succ fuel, cur, obr =>
    let s1 := rightBoundaryStep target e cur obr
    let pre := s1.1 ++ currentIdStep target cur
    match cur.lastParentInterval with
    | none => (pre, WalkExit.root)
    | some pl =>
      match List.lookup pl.id store with
      | none => (pre, WalkExit.keyErr)
      | some parent =>
        if parent.leave < b then (pre, WalkExit.brokeLeft parent)
        else
          let rest := traceWalkAux store target b e fuel parent
            (if s1.2.isSome then some cur else none)
          (pre ++ rest.1, rest.2)

/-- The full walk of lines 273-326 starting from a resolved target interval:
the loop, then the post-loop `beyondLeft` block (lines 317-326), which fires
exactly when the loop exited by the left-boundary break at a node that itself
carries a `lastParentInterval`.  The fuel `store.length + 1` covers every
acyclic parent chain; exhausting it corresponds to a parent cycle, on which
the Python loop would never terminate. -/
def traceWalk (store : IvStore) (target : Interval) (b e : Rat) :
    List TraceItem × Option GenError :=
  match traceWalkAux store target b e (store.length + 1) target (some target) with
  | (items, WalkExit.root) => (items, none)
  | (items, WalkExit.brokeLeft stop) =>
    match stop.lastParentInterval with
    | some pl =>
      (items ++ [TraceItem.beyondLeft pl.id pl.location pl.endTimestamp,
                 TraceItem.commaId stop.intervalId], none)
    | none => (items, none)
  | (items, WalkExit.keyErr) => (items, some GenError.keyError)
  | (items, WalkExit.fuelOut) => (items, some GenError.nonTermination)

/-- Lookup of a store-valued key on the dataset dict, as performed by
`db[label][key]`: the interval store is bound under the key `"intervals"`
(when present); any other key is a `KeyError`. -/
def datasetStoreAt (ds : Dataset) (key : String) : Option IvStore :=
  if key = "intervals" then ds.intervals else none

/-- `intervalIdGenerator` of lines 269-328, faithful to the source: the target
is fetched from `db[label]['itervals']` — a misspelled key that is never bound
— so the lookup raises `KeyError` (after the opening bracket of line 270 has
already been yielded); ancestor lookups of line 307 use the correctly spelled
`db[label]['intervals']`. -/
def intervalIdGenerator (ds : Dataset) (intervalId : String) (wb we : Rat) :
    List TraceItem × Option GenError :=
  match datasetStoreAt ds "itervals" with
  | none => ([], some .keyError)
  | some store0 =>
    match List.lookup intervalId store0 with
    | none => ([], some .keyError)
    | some target =>
      match ds.intervals with
      | none => ([], some .keyError)
      | some store => traceWalk store target wb we

/-- Modelled from the spec: section 9 declares the `'itervals'` key a defect
and directs the trace lookup at the single canonical interval store; this is
`intervalIdGenerator` with the key spelled `"intervals"`. -/
def intervalIdGeneratorFixed (ds : Dataset) (intervalId : String) (wb we : Rat) :
    List TraceItem × Option GenError :=
  match datasetStoreAt ds "intervals" with
  | none => ([], some .keyError)
  | some store0 =>
    match List.lookup intervalId store0 with
    | none => ([], some .keyError)
    | some target =>
      match ds.intervals with
      | none => ([], some .keyError)
      | some store => traceWalk store target wb we

/-- The trace handler, lines 256-329: existence and index checks, window
defaulting, then the streaming generator (whose failures happen after the
response has started and are therefore carried inside the `.ok` payload). -/
def intervalTrace (db : Db) (label intervalId : String) (b e : Option Rat) :
    Except ServeError (List TraceItem × Option GenError) :=
  match List.lookup label db with
  | none => .error (.http .datasetNotFound)
  | some ds =>
    match ds.intervals, ds.intervalIndexes with
    | some _, some _ =>
      let wb := b.getD ds.meta.intervalDomain.1
      let we := e.getD ds.meta.intervalDomain.2
      .ok (intervalIdGenerator ds intervalId wb we)
    | _, _ => .error (.http .noIntervalData)

/-- An item that resolves the right boundary: the bare target id of line 280
or the `beyondRight` marker of lines 287-292. -/
def isRightEmission : TraceItem → Bool
  | .directId _ => true
  | .beyondRight _ _ _ => true
  | _ => false

/-- An item that is the `beyondLeft` marker of lines 320-325. -/
def isBeyondLeftItem : TraceItem → Bool
  | .beyondLeft _ _ _ => true
  | _ => false

/-- Concatenation of the streamed chunks, i.e. the text the client receives. -/
def strConcat : List String → String
  | [] => ""
  | s :: rest => s ++ strConcat rest

/-- The body of a JSON array with exactly one comma between consecutive
elements and none before the first or after the last. -/
def jsonArrayBody : List String → String
  | [] => ""
  | [s] => s
  | s :: rest => s ++ "," ++ jsonArrayBody rest

/-- Resolution of every index entry's `data` id in the interval store
(line 251); `none` as soon as one lookup would raise a `KeyError`. -/
def resolveRecords (store : IvStore) : List IndexEntry → Option (List Interval)
  | [] => some []
  | i :: rest =>
    match List.lookup i.data store with
    | none => none
    | some iv =>
      match resolveRecords store rest with
      | none => none
      | some ivs => some (iv :: ivs)

/-- The chunks the interval generator produces for each record after the
first: a comma chunk, then the serialized record. -/
def commaChunks : List Interval → List String
  | [] => []
  | iv :: rest => "," :: jsonDumpsInterval iv :: commaChunks rest

/-- Concrete scenario B of the spec: target `T = [15, 25)` whose parent link
names `P = [0, 40)`, a call-stack root. -/
def intT : Interval := ⟨"T", "loc0", 15, 25, some ⟨"P", "loc0", 40⟩⟩

/-- The root parent `P = [0, 40)` of scenario B. -/
def intP : Interval := ⟨"P", "loc0", 0, 40, none⟩

/-- Interval store of scenario B. -/
def storeB : IvStore := [("T", intT), ("P", intP)]

/-- A small index set over scenario B's store (the trace walk never consults
it; it only has to be present for `checkDatasetHasIntervals`). -/
def idxB : IndexSet :=
  ⟨⟨[⟨15, 25, "T"⟩, ⟨0, 40, "P"⟩]⟩, [("loc0", ⟨[⟨15, 25, "T"⟩, ⟨0, 40, "P"⟩]⟩)],
   [("prim0", ⟨[⟨15, 25, "T"⟩]⟩)], [("loc0", [("prim0", ⟨[⟨15, 25, "T"⟩]⟩)])]⟩

/-- Scenario B's dataset, domain `[0, 40]`. -/
def dsB : Dataset := ⟨⟨(0, 40)⟩, some storeB, some idxB⟩

/-- A database holding scenario B's dataset under label `"b"`. -/
def dbB : Db := [("b", dsB)]

/-- A walk example where the left-boundary break stops on a node that is a
root: `T = [15, 25)` whose parent link names `Q = [0, 10)`, itself a root with
`leave = 10 < begin = 20`. -/
def intT2 : Interval := ⟨"T", "loc0", 15, 25, some ⟨"Q", "loc0", 10⟩⟩

/-- The rootless-stop parent `Q = [0, 10)`. -/
def intQ : Interval := ⟨"Q", "loc0", 0, 10, none⟩

/-- Store of the rootless-stop example. -/
def storeQ : IvStore := [("T", intT2), ("Q", intQ)]

/-- A walk example where the break stops on a node that still carries a parent
link: `T = [15, 25)` with parent `Pm = [5, 18)`, whose own parent link names
the root `G = [0, 50)`. -/
def intT3 : Interval := ⟨"T", "loc0", 15, 25, some ⟨"Pm", "loc0", 18⟩⟩

/-- The mid-chain parent `Pm = [5, 18)`, which the walk stops on. -/
def intPm : Interval := ⟨"Pm", "loc0", 5, 18, some ⟨"G", "loc1", 50⟩⟩

/-- The grandparent root `G = [0, 50)`. -/
def intG : Interval := ⟨"G", "loc1", 0, 50, none⟩

/-- Store of the break-with-parent example. -/
def storeG : IvStore := [("T", intT3), ("Pm", intPm), ("G", intG)]

/-- A second database that assigns the same snapshot to label `"b"` as `dbB`
but differs elsewhere. -/
def dbB2 : Db := [("other", ⟨⟨(0, 1)⟩, none, none⟩), ("b", dsB)]

/-- C1: spec scenario B expects the trace stream `[T.id, P.id]`; the handler
as written fetches the target from the misspelled dict key `'itervals'`, so
the generator raises `KeyError` right after the opening bracket and every
trace query fails; once the lookup uses the canonical `'intervals'` store (the
defect fix that section 9 of the spec directs), the walk emits exactly `T`'s
id directly, then `P`'s id, with no `beyondRight` and no trailing `beyondLeft`
marker. -/
theorem trace_scenarioB_typo_keyError :
    intervalTrace dbB "b" "T" (some 20) (some 30) =
      .ok ([], some GenError.keyError) ∧
    intervalIdGeneratorFixed dsB "T" 20 30 =
      ([TraceItem.directId "T", TraceItem.commaId "P"], none) := by
  constructor <;> rfl

/-- C3 counterexample: a histogram request with `bins = 0` (also with
`begin = end`) is not rejected — the handler resolves the main index and
invokes the histogram computation with the invalid window instead of failing
with any `InvalidWindow` condition. -/
theorem histogram_invalid_window_not_rejected :
    histogram dbB "b" HistogramMode.count 0 (some 0) (some 10) none none =
      .ok ⟨idxB.main, HistogramMode.count, 0, 0, 10⟩ ∧
    histogram dbB "b" HistogramMode.utilization 100 (some 7) (some 7) none none =
      .ok ⟨idxB.main, HistogramMode.utilization, 100, 7, 7⟩ := by
  constructor <;> rfl

/-- C4 counterexample: a trace request for an id absent from the store does
not fail with any explicit `UnknownInterval` condition — the handler answers
`.ok` and the stream then dies with an uncaught `KeyError` after only the
opening bracket. -/
theorem trace_unknown_interval_counterexample :
    intervalTrace dbB "b" "missing" none none =
      .ok ([], some GenError.keyError) := by
  rfl

/-- C6 counterexample: a walk that stops because a followed parent link
reached `Q = [0, 10)` with `leave = 10 < begin = 20` — i.e. it exits by the
left-boundary break — but whose stopping node `Q` is itself a root: contrary
to the claim, the stream is just `[T.id]`, with no `beyondLeft` marker and no
re-emitted stopping id. -/
theorem trace_break_on_root_no_beyondLeft :
    (traceWalkAux storeQ intT2 20 30 (storeQ.length + 1) intT2 (some intT2)).2 =
      WalkExit.brokeLeft intQ ∧
    traceWalk storeQ intT2 20 30 = ([TraceItem.directId "T"], none) := by
  constructor <;> rfl

/-- C8: an unknown dataset label fails with the 404 `Dataset not found` on all
three query handlers; a dataset that exists but lacks the `intervals` or the
`intervalIndexes` key fails with the 404 `Dataset does not contain indexed
interval data`; since the unknown-label case always yields the former, an
unknown dataset never reports the index error, and the two conditions are
distinct. -/
theorem dataset_checks_precede_index_checks
    (db : Db) (label id : String) (mode : HistogramMode) (bins : Int)
    (b e : Option Rat) (loc prim : Option String) :
    (List.lookup label db = none →
       histogram db label mode bins b e loc prim =
         .error (.http .datasetNotFound) ∧
       intervals db label b e = .error (.http .datasetNotFound) ∧
       intervalTrace db label id b e = .error (.http .datasetNotFound)) ∧
    (∀ ds, List.lookup label db = some ds →
       ds.intervals = none ∨ ds.intervalIndexes = none →
       histogram db label mode bins b e loc prim =
         .error (.http .noIntervalData) ∧
       intervals db label b e = .error (.http .noIntervalData) ∧
       intervalTrace db label id b e = .error (.http .noIntervalData)) ∧
    HTTPError.datasetNotFound ≠ HTTPError.noIntervalData ∧
    HTTPError.datasetNotFound.statusCode = 404 ∧
    HTTPError.noIntervalData.statusCode = 404 := by
  refine ⟨fun h => ?_, fun ds hds hmiss => ?_, by decide, rfl, rfl⟩
  · refine ⟨?_, ?_, ?_⟩ <;> simp [histogram, intervals, intervalTrace, h]
  · rcases hmiss with h1 | h1
    · cases h2 : ds.intervalIndexes <;>
        refine ⟨?_, ?_, ?_⟩ <;>
          simp [histogram, intervals, intervalTrace, hds, h1, h2]
    · cases h2 : ds.intervals <;>
        refine ⟨?_, ?_, ?_⟩ <;>
          simp [histogram, intervals, intervalTrace, hds, h1, h2]

/-- C7: on each of the three query handlers an omitted `begin` behaves exactly
as the explicit lower endpoint of the dataset's recorded `intervalDomain`, an
omitted `end` exactly as the explicit upper endpoint, and explicitly supplied
bounds reach the histogram computation unchanged. -/
theorem window_defaults
    (db : Db) (label id : String) (ds : Dataset) (mode : HistogramMode)
    (bins : Int) (b e : Option Rat) (loc prim : Option String) (x y : Rat)
    (hds : List.lookup label db = some ds) :
    histogram db label mode bins none e loc prim
      = histogram db label mode bins (some ds.meta.intervalDomain.1) e loc prim ∧
    histogram db label mode bins b none loc prim
      = histogram db label mode bins b (some ds.meta.intervalDomain.2) loc prim ∧
    intervals db label none e
      = intervals db label (some ds.meta.intervalDomain.1) e ∧
    intervals db label b none
      = intervals db label b (some ds.meta.intervalDomain.2) ∧
    intervalTrace db label id none e
      = intervalTrace db label id (some ds.meta.intervalDomain.1) e ∧
    intervalTrace db label id b none
      = intervalTrace db label id b (some ds.meta.intervalDomain.2) ∧
    (∀ store idx, ds.intervals = some store → ds.intervalIndexes = some idx →
       histogram db label mode bins (some x) (some y) none none =
         .ok ⟨idx.main, mode, bins, x, y⟩) := by
  refine ⟨?_, ?_, ?_, ?_, ?_, ?_, fun store idx hs hi => ?_⟩ <;>
    simp [histogram, intervals, intervalTrace, hds, *]

/-- C9: each query handler is a pure function of the request parameters and of
the dataset snapshot the label resolves to — two databases assigning the same
snapshot to the label give identical histogram, interval-listing and trace
results, so repeating a request against an unchanged store and index set
returns identical results. -/
theorem queries_deterministic_readonly
    (db db' : Db) (label id : String) (mode : HistogramMode) (bins : Int)
    (b e : Option Rat) (loc prim : Option String)
    (h : List.lookup label db = List.lookup label db') :
    histogram db label mode bins b e loc prim
      = histogram db' label mode bins b e loc prim ∧
    intervals db label b e = intervals db' label b e ∧
    intervalTrace db label id b e = intervalTrace db' label id b e := by
  refine ⟨?_, ?_, ?_⟩
  · unfold histogram; rw [h]
  · unfold intervals; rw [h]
  · unfold intervalTrace; rw [h]

/-- C3 amended: the service performs no window validation — a histogram
request on an existing, indexed dataset whose `bins` is less than 1 or whose
resolved `begin` is at or above its resolved `end` is not rejected with any
`InvalidWindow` condition; the handler resolves the index and invokes the
histogram computation with the invalid parameters unchanged. -/
theorem histogram_no_window_validation
    (db : Db) (label : String) (ds : Dataset) (store : IvStore) (idx : IndexSet)
    (mode : HistogramMode) (bins : Int) (b e : Option Rat)
    (hds : List.lookup label db = some ds)
    (hs : ds.intervals = some store)
    (hi : ds.intervalIndexes = some idx)
    (hbad : bins < 1 ∨
      e.getD ds.meta.intervalDomain.2 ≤ b.getD ds.meta.intervalDomain.1) :
    histogram db label mode bins b e none none =
      .ok ⟨idx.main, mode, bins, b.getD ds.meta.intervalDomain.1,
           e.getD ds.meta.intervalDomain.2⟩ := by
  simp [histogram, hds, hs, hi]

/-- C4 amended: a trace request naming an intervalId absent from the store is
answered `.ok` and then fails inside the streaming generator with an uncaught
`KeyError` — the failure is signalled to the consumer as a broken stream with
only the opening bracket emitted, never as an explicit `UnknownInterval`
condition and never as a prematurely closed, syntactically valid stream; this
holds both for the handler as written (where the misspelled `'itervals'` key
makes every lookup fail) and for the generator with the lookup directed at the
canonical store. -/
theorem trace_unknown_interval_stream_error
    (db : Db) (label id : String) (ds : Dataset) (store : IvStore)
    (idx : IndexSet) (b e : Option Rat) (wb we : Rat)
    (hds : List.lookup label db = some ds)
    (hs : ds.intervals = some store)
    (hi : ds.intervalIndexes = some idx)
    (hid : List.lookup id store = none) :
    intervalTrace db label id b e = .ok ([], some GenError.keyError) ∧
    intervalIdGeneratorFixed ds id wb we = ([], some GenError.keyError) := by
  constructor
  · simp [intervalTrace, hds, hs, hi, intervalIdGenerator, datasetStoreAt]
  · simp [intervalIdGeneratorFixed, datasetStoreAt, hs, hid]

/-- C2: selector resolution of the histogram handler on an existing, indexed
dataset — no selector resolves to the main index, a known location alone to
its per-location index, a known primitive alone to its per-primitive index,
and a known pair to the combined index; an unknown location, an unknown
(location, primitive) combination and an unknown primitive each fail with a
distinct 404 condition carrying the offending selector. -/
theorem histogram_selector_resolution
    (db : Db) (label : String) (ds : Dataset) (store : IvStore) (idx : IndexSet)
    (mode : HistogramMode) (bins : Int) (b e : Option Rat)
    (hds : List.lookup label db = some ds)
    (hs : ds.intervals = some store)
    (hi : ds.intervalIndexes = some idx) :
    (histogram db label mode bins b e none none =
       .ok ⟨idx.main, mode, bins, b.getD ds.meta.intervalDomain.1,
            e.getD ds.meta.intervalDomain.2⟩) ∧
    (∀ loc li, List.lookup loc idx.locations = some li →
       histogram db label mode bins b e (some loc) none =
         .ok ⟨li, mode, bins, b.getD ds.meta.intervalDomain.1,
              e.getD ds.meta.intervalDomain.2⟩) ∧
    (∀ prim pi, List.lookup prim idx.primitives = some pi →
       histogram db label mode bins b e none (some prim) =
         .ok ⟨pi, mode, bins, b.getD ds.meta.intervalDomain.1,
              e.getD ds.meta.intervalDomain.2⟩) ∧
    (∀ loc prim li bl bi, List.lookup loc idx.locations = some li →
       List.lookup loc idx.both = some bl → List.lookup prim bl = some bi →
       histogram db label mode bins b e (some loc) (some prim) =
         .ok ⟨bi, mode, bins, b.getD ds.meta.intervalDomain.1,
              e.getD ds.meta.intervalDomain.2⟩) ∧
    (∀ loc primOpt, List.lookup loc idx.locations = none →
       histogram db label mode bins b e (some loc) primOpt =
         .error (.http (.noLocationIndex loc))) ∧
    (∀ loc prim li bl, List.lookup loc idx.locations = some li →
       List.lookup loc idx.both = some bl → List.lookup prim bl = none →
       histogram db label mode bins b e (some loc) (some prim) =
         .error (.http (.noBothIndex loc prim))) ∧
    (∀ prim, List.lookup prim idx.primitives = none →
       histogram db label mode bins b e none (some prim) =
         .error (.http (.noPrimitiveIndex prim))) ∧
    (∀ l p l' p', HTTPError.noLocationIndex l ≠ HTTPError.noBothIndex l' p' ∧
       HTTPError.noLocationIndex l ≠ HTTPError.noPrimitiveIndex p ∧
       HTTPError.noBothIndex l' p' ≠ HTTPError.noPrimitiveIndex p ∧
       (HTTPError.noLocationIndex l).statusCode = 404 ∧
       (HTTPError.noBothIndex l' p').statusCode = 404 ∧
       (HTTPError.noPrimitiveIndex p).statusCode = 404) := by
  refine ⟨?_, fun loc li hl => ?_, fun prim pi hp => ?_,
    fun loc prim li bl bi hl hbl hb => ?_, fun loc primOpt hl => ?_,
    fun loc prim li bl hl hbl hb => ?_, fun prim hp => ?_,
    fun l p l' p' => ⟨by simp, by simp, by simp, rfl, rfl, rfl⟩⟩
  · simp [histogram, hds, hs, hi]
  · simp [histogram, hds, hs, hi, hl]
  · simp [histogram, hds, hs, hi, hp]
  · simp [histogram, hds, hs, hi, hl, hbl, hb]
  · cases primOpt <;> simp [histogram, hds, hs, hi, hl]
  · simp [histogram, hds, hs, hi, hl, hbl, hb]
  · simp [histogram, hds, hs, hi, hp]

/-- The id-emission step never produces a right-boundary item or a
`beyondLeft` marker: it yields at most a `commaId`. -/
theorem countP_currentIdStep (p : TraceItem → Bool)
    (hp : ∀ s, p (TraceItem.commaId s) = false) (target cur : Interval) :
    (currentIdStep target cur).countP p = 0 := by
  unfold currentIdStep
  split <;> simp [hp]

/-- The right-boundary block emits at most one item (none when
`oneBeyondRight` is already `None`), emits nothing when it keeps
`oneBeyondRight` set, and keeps it set only if it was set on entry. -/
theorem rightStep_spec (target : Interval) (e : Rat) (cur : Interval)
    (obr : Option Interval) :
    ((rightBoundaryStep target e cur obr).1.countP isRightEmission
        ≤ if obr.isSome then 1 else 0) ∧
    ((rightBoundaryStep target e cur obr).2.isSome = true →
        (rightBoundaryStep target e cur obr).1.countP isRightEmission = 0) ∧
    ((rightBoundaryStep target e cur obr).2.isSome = true →
        obr.isSome = true) := by
  cases obr with
  | none => simp [rightBoundaryStep]
  | some o =>
    by_cases he : cur.enter ≤ e
    · by_cases ho : o = target <;>
        simp [rightBoundaryStep, he, ho, isRightEmission]
    · simp [rightBoundaryStep, he]

/-- Loop invariant for the trace walk: the items the loop emits contain at
most one right-boundary emission, and none at all once `oneBeyondRight` has
been cleared. -/
theorem walkAux_right_count (store : IvStore) (target : Interval) (b e : Rat) :
    ∀ fuel cur obr,
      (traceWalkAux store target b e fuel cur obr).1.countP isRightEmission
        ≤ if obr.isSome then 1 else 0 := by
  intro fuel
  induction fuel with
  | zero => intro cur obr; simp [traceWalkAux]
  | succ n ih =>
    intro cur obr
    obtain ⟨h1, h2, h3⟩ := rightStep_spec target e cur obr
    have hcur : (currentIdStep target cur).countP isRightEmission = 0 :=
      countP_currentIdStep _ (fun s => rfl) target cur
    simp only [traceWalkAux]
    cases hpl : cur.lastParentInterval with
    | none => simpa [List.countP_append, hcur] using h1
    | some pl =>
      dsimp only
      cases hlk : List.lookup pl.id store with
      | none => simpa [List.countP_append, hcur] using h1
      | some parent =>
        by_cases hlv : parent.leave < b
        · simpa [hlv, List.countP_append, hcur] using h1
        · simp only [hlv, if_false, List.countP_append, hcur]
          by_cases hsome :
              (rightBoundaryStep target e cur obr).2.isSome = true
          · have hrest := ih parent (some cur)
            simp only [hsome, if_true, Option.isSome_some] at hrest ⊢
            have h0 := h2 hsome
            have hb' := h3 hsome
            simp only [hb', if_true] at h1 ⊢
            omega
          · have hb0 : (rightBoundaryStep target e cur obr).2.isSome = false := by
              simpa using hsome
            have hrest := ih parent none
            rw [show (if Option.isSome (none : Option Interval) = true
                then 1 else 0) = 0 from rfl] at hrest
            simp only [hb0]
            rw [show (if false = true then some cur else none)
                = (none : Option Interval) from rfl]
            cases obr with
            | none =>
              rw [show (if Option.isSome (none : Option Interval) = true
                  then 1 else 0) = 0 from rfl] at h1 ⊢
              omega
            | some o =>
              rw [show (if Option.isSome (some o) = true then 1 else 0) = 1
                from rfl] at h1 ⊢
              omega

/-- The loop of the trace walk never emits a `beyondLeft` marker; that marker
can only come from the post-loop block. -/
theorem walkAux_no_beyondLeft (store : IvStore) (target : Interval)
    (b e : Rat) :
    ∀ fuel cur obr,
      (traceWalkAux store target b e fuel cur obr).1.countP isBeyondLeftItem
        = 0 := by
  intro fuel
  induction fuel with
  | zero => intro cur obr; simp [traceWalkAux]
  | succ n ih =>
    intro cur obr
    have hstep :
        (rightBoundaryStep target e cur obr).1.countP isBeyondLeftItem = 0 := by
      cases obr with
      | none => simp [rightBoundaryStep]
      | some o =>
        by_cases he : cur.enter ≤ e
        · by_cases ho : o = target <;>
            simp [rightBoundaryStep, he, ho, isBeyondLeftItem]
        · simp [rightBoundaryStep, he]
    have hcur : (currentIdStep target cur).countP isBeyondLeftItem = 0 :=
      countP_currentIdStep _ (fun s => rfl) target cur
    simp only [traceWalkAux]
    cases hpl : cur.lastParentInterval with
    | none => simp [List.countP_append, hcur, hstep]
    | some pl =>
      dsimp only
      cases hlk : List.lookup pl.id store with
      | none => simp [List.countP_append, hcur, hstep]
      | some parent =>
        by_cases hlv : parent.leave < b
        · simp [hlv, List.countP_append, hcur, hstep]
        · simp [hlv, List.countP_append, hcur, hstep, ih]

/-- Every bare (first-position) id the walk emits is the target's id: the
`directId` form only arises from line 280 of the source. -/
theorem walkAux_directId (store : IvStore) (target : Interval) (b e : Rat) :
    ∀ fuel cur obr s,
      TraceItem.directId s ∈ (traceWalkAux store target b e fuel cur obr).1 →
        s = target.intervalId := by
  intro fuel
  induction fuel with
  | zero => intro cur obr s h; simp [traceWalkAux] at h
  | succ n ih =>
    intro cur obr s h
    have hstep : ∀ s', TraceItem.directId s' ∈
        (rightBoundaryStep target e cur obr).1 → s' = target.intervalId := by
      intro s' hm
      cases obr with
      | none => simp [rightBoundaryStep] at hm
      | some o =>
        by_cases he : cur.enter ≤ e
        · by_cases ho : o = target <;>
            simp [rightBoundaryStep, he, ho] at hm
          · exact hm
        · simp [rightBoundaryStep, he] at hm
    have hcur : ∀ s', TraceItem.directId s' ∉ currentIdStep target cur := by
      intro s' hm
      unfold currentIdStep at hm
      split at hm <;> simp at hm
    simp only [traceWalkAux] at h
    cases hpl : cur.lastParentInterval <;> rw [hpl] at h <;> dsimp only at h
    · rcases List.mem_append.mp h with hm | hm
      · exact hstep s hm
      · exact absurd hm (hcur s)
    · cases hlk : List.lookup _ store <;> rw [hlk] at h <;> dsimp only at h
      · rcases List.mem_append.mp h with hm | hm
        · exact hstep s hm
        · exact absurd hm (hcur s)
      · split at h
        · rcases List.mem_append.mp h with hm | hm
          · exact hstep s hm
          · exact absurd hm (hcur s)
        · rcases List.mem_append.mp h with hm | hm
          · rcases List.mem_append.mp hm with hm' | hm'
            · exact hstep s hm'
            · exact absurd hm' (hcur s)
          · exact ih _ _ s hm

/-- Two distinct members both satisfying a predicate force a count of at
least two. -/
theorem two_le_countP_of_mem {α : Type} (p : α → Bool) :
    ∀ (xs : List α) (a c : α), a ∈ xs → c ∈ xs → a ≠ c →
      p a = true → p c = true → 2 ≤ xs.countP p := by
  intro xs
  induction xs with
  | nil => intro a c ha; cases ha
  | cons x t ih =>
    intro a c ha hc hne hpa hpc
    rcases List.mem_cons.mp ha with rfl | hat
    · rcases List.mem_cons.mp hc with rfl | hct
      · exact absurd rfl hne
      · have h1 : 0 < t.countP p := List.countP_pos_iff.mpr ⟨c, hct, hpc⟩
        rw [List.countP_cons]
        simp only [hpa, if_true]
        omega
    · rcases List.mem_cons.mp hc with rfl | hct
      · have h1 : 0 < t.countP p := List.countP_pos_iff.mpr ⟨a, hat, hpa⟩
        rw [List.countP_cons]
        simp only [hpc, if_true]
        omega
      · have := ih a c hat hct hne hpa hpc
        rw [List.countP_cons]
        omega

/-- C5: in every trace walk the right-boundary emission happens at most once:
the produced stream holds at most one right-boundary item (a bare target id or
a `beyondRight` marker), every bare id it holds is the target's own id, and it
never holds both a bare target id and a `beyondRight` marker. -/
theorem trace_right_emission_at_most_once (store : IvStore) (target : Interval)
    (b e : Rat) :
    (traceWalk store target b e).1.countP isRightEmission ≤ 1 ∧
    (∀ s, TraceItem.directId s ∈ (traceWalk store target b e).1 →
       s = target.intervalId) ∧
    (∀ s i l t, TraceItem.directId s ∈ (traceWalk store target b e).1 →
       TraceItem.beyondRight i l t ∈ (traceWalk store target b e).1 →
         False) := by
  have key : (traceWalk store target b e).1.countP isRightEmission ≤ 1 ∧
      (∀ s, TraceItem.directId s ∈ (traceWalk store target b e).1 →
        s = target.intervalId) := by
    unfold traceWalk
    have h1 := walkAux_right_count store target b e (store.length + 1)
      target (some target)
    have h2 := walkAux_directId store target b e (store.length + 1)
      target (some target)
    cases hw : traceWalkAux store target b e (store.length + 1) target
        (some target) with
    | mk items ex =>
      rw [hw] at h1 h2
      simp only [Option.isSome_some, if_true] at h1
      cases ex with
      | root => exact ⟨h1, fun s h => h2 s h⟩
      | keyErr => exact ⟨h1, fun s h => h2 s h⟩
      | fuelOut => exact ⟨h1, fun s h => h2 s h⟩
      | brokeLeft stop =>
        dsimp only
        cases hpl : stop.lastParentInterval with
        | none => exact ⟨h1, fun s h => h2 s h⟩
        | some pl =>
          constructor
          · simp only [List.countP_append]
            have : [TraceItem.beyondLeft pl.id pl.location pl.endTimestamp,
                TraceItem.commaId stop.intervalId].countP isRightEmission
                  = 0 := rfl
            omega
          · intro s h
            rcases List.mem_append.mp h with hm | hm
            · exact h2 s hm
            · simp at hm
  refine ⟨key.1, key.2, fun s i l t hm1 hm2 => ?_⟩
  have h2 := two_le_countP_of_mem isRightEmission _ _ _ hm1 hm2
    (fun h => TraceItem.noConfusion h) rfl rfl
  omega

/-- C6 amended: the loop itself never emits a `beyondLeft` marker; the stream
ends with a `beyondLeft` marker (built from the stopping node's own parent
link) followed by the stopping node's id exactly when the walk exited by the
left-boundary break at a node that still carries a parent link; when that
stopping node is itself a root, and when the walk ends by reaching a
call-stack root inside the window, nothing is appended. -/
theorem trace_beyondLeft_policy (store : IvStore) (target : Interval)
    (b e : Rat) (items : List TraceItem) (ex : WalkExit)
    (hw : traceWalkAux store target b e (store.length + 1) target
      (some target) = (items, ex)) :
    items.countP isBeyondLeftItem = 0 ∧
    (∀ stop pl, ex = WalkExit.brokeLeft stop →
       stop.lastParentInterval = some pl →
       traceWalk store target b e =
         (items ++ [TraceItem.beyondLeft pl.id pl.location pl.endTimestamp,
                    TraceItem.commaId stop.intervalId], none)) ∧
    (∀ stop, ex = WalkExit.brokeLeft stop → stop.lastParentInterval = none →
       traceWalk store target b e = (items, none)) ∧
    (ex = WalkExit.root → traceWalk store target b e = (items, none)) := by
  refine ⟨?_, ?_, ?_, ?_⟩
  · have := walkAux_no_beyondLeft store target b e (store.length + 1)
      target (some target)
    rw [hw] at this
    exact this
  · rintro stop pl rfl hpl
    unfold traceWalk
    rw [hw]
    dsimp only
    rw [hpl]
  · rintro stop rfl hpl
    unfold traceWalk
    rw [hw]
    dsimp only
    rw [hpl]
  · rintro rfl
    unfold traceWalk
    rw [hw]

/-- After the first record has been emitted the generator prefixes every
further record with exactly one comma chunk, and closes with the bracket. -/
theorem chunksGo_false (store : IvStore) :
    ∀ l ivs, resolveRecords store l = some ivs →
      intervalChunksGo store l false = (commaChunks ivs ++ ["]"], none) := by
  intro l
  induction l with
  | nil =>
    intro ivs h
    simp only [resolveRecords, Option.some.injEq] at h
    subst h
    rfl
  | cons i rest ih =>
    intro ivs h
    simp only [resolveRecords] at h
    cases hlk : List.lookup i.data store with
    | none => rw [hlk] at h; exact absurd h (by simp)
    | some iv =>
      rw [hlk] at h
      cases hres : resolveRecords store rest with
      | none => rw [hres] at h; exact absurd h (by simp)
      | some ivs0 =>
        rw [hres] at h
        simp only [Option.some.injEq] at h
        subst h
        simp [intervalChunksGo, hlk, ih ivs0 hres, commaChunks]

/-- Splitting a two-or-more-element array body at its head. -/
theorem jsonArrayBody_cons2 (a c : String) (t : List String) :
    jsonArrayBody (a :: c :: t) = a ++ "," ++ jsonArrayBody (c :: t) := rfl

/-- Concatenating a record and the comma-prefixed chunks of the remaining
records produces the well-formed array body followed by the closing
bracket. -/
theorem dump_commaChunks :
    ∀ (ivs : List Interval) (iv : Interval),
      jsonDumpsInterval iv ++ strConcat (commaChunks ivs ++ ["]"]) =
        jsonArrayBody ((iv :: ivs).map jsonDumpsInterval) ++ "]" := by
  intro ivs
  induction ivs with
  | nil =>
    intro iv
    simp only [commaChunks, List.nil_append, List.map_cons, List.map_nil]
    rw [show strConcat ["]"] = "]" from rfl]
    rfl
  | cons y ys ih =>
    intro iv
    simp only [commaChunks, List.cons_append, List.map_cons]
    rw [show strConcat ("," :: jsonDumpsInterval y ::
        (commaChunks ys ++ ["]"])) = "," ++ (jsonDumpsInterval y ++
        strConcat (commaChunks ys ++ ["]"])) from rfl]
    rw [ih y, jsonArrayBody_cons2]
    simp [String.append_assoc]

/-- The first-position record carries no comma and the stream then continues
with comma-prefixed records and the closing bracket. -/
theorem go_true_concat (store : IvStore) (l : List IndexEntry)
    (ivs : List Interval) (h : resolveRecords store l = some ivs) :
    (intervalChunksGo store l true).2 = none ∧
    strConcat (intervalChunksGo store l true).1 =
      jsonArrayBody (ivs.map jsonDumpsInterval) ++ "]" := by
  cases l with
  | nil =>
    simp only [resolveRecords, Option.some.injEq] at h
    subst h
    exact ⟨rfl, rfl⟩
  | cons i rest =>
    simp only [resolveRecords] at h
    cases hlk : List.lookup i.data store with
    | none => rw [hlk] at h; exact absurd h (by simp)
    | some iv =>
      rw [hlk] at h
      cases hres : resolveRecords store rest with
      | none => rw [hres] at h; exact absurd h (by simp)
      | some ivs0 =>
        rw [hres] at h
        simp only [Option.some.injEq] at h
        subst h
        have hgo := chunksGo_false store rest ivs0 hres
        constructor
        · simp [intervalChunksGo, hlk, hgo]
        · simp only [intervalChunksGo, hlk, hgo, if_true]
          rw [show strConcat (jsonDumpsInterval iv ::
              (commaChunks ivs0 ++ ["]"])) = jsonDumpsInterval iv ++
              strConcat (commaChunks ivs0 ++ ["]"]) from rfl]
          exact dump_commaChunks ivs0 iv

/-- C10: on an existing, indexed dataset whose overlap enumeration resolves
entirely in the interval store, the interval-listing stream completes without
error and its concatenation is a well-formed JSON array: an opening bracket,
the records separated by exactly one comma each (none before the first, none
after the last), and a closing bracket; an empty overlap yields exactly
`[]`. -/
theorem intervals_stream_wellformed
    (db : Db) (label : String) (ds : Dataset) (store : IvStore)
    (idx : IndexSet) (wb we : Rat) (ivs : List Interval)
    (hds : List.lookup label db = some ds)
    (hs : ds.intervals = some store)
    (hi : ds.intervalIndexes = some idx)
    (hres : resolveRecords store (idx.main.iterOverlap wb we) = some ivs) :
    intervals db label (some wb) (some we) =
      .ok (intervalGenerator store idx wb we) ∧
    (intervalGenerator store idx wb we).2 = none ∧
    strConcat (intervalGenerator store idx wb we).1 =
      "[" ++ jsonArrayBody (ivs.map jsonDumpsInterval) ++ "]" ∧
    (idx.main.iterOverlap wb we = [] →
      strConcat (intervalGenerator store idx wb we).1 = "[]") := by
  obtain ⟨h2, h3⟩ := go_true_concat store _ ivs hres
  refine ⟨?_, ?_, ?_, fun hempty => ?_⟩
  · simp [intervals, hds, hs, hi]
  · simpa [intervalGenerator] using h2
  · simp only [intervalGenerator]
    rw [show strConcat ("[" ::
        (intervalChunksGo store (idx.main.iterOverlap wb we) true).1) =
        "[" ++ strConcat
          (intervalChunksGo store (idx.main.iterOverlap wb we) true).1
        from rfl]
    rw [h3, String.append_assoc]
  · simp only [intervalGenerator, hempty]
    rfl

/-- Witness for the C2 theorem at scenario B's dataset: no selector resolves
to the main index. -/
theorem histogram_selector_resolution_witness :
    List.lookup "b" dbB = some dsB ∧ dsB.intervals = some storeB ∧
    dsB.intervalIndexes = some idxB ∧
    histogram dbB "b" HistogramMode.utilization 100 none none none none =
      .ok ⟨idxB.main, HistogramMode.utilization, 100, 0, 40⟩ :=
  ⟨rfl, rfl, rfl,
   (histogram_selector_resolution dbB "b" dsB storeB idxB
     HistogramMode.utilization 100 none none rfl rfl rfl).1⟩

/-- Witness for the C3 amended theorem: `bins = 0 < 1` on the indexed dataset
is still dispatched to the main index computation. -/
theorem histogram_no_window_validation_witness :
    List.lookup "b" dbB = some dsB ∧ (0 : Int) < 1 ∧
    histogram dbB "b" HistogramMode.count 0 none none none none =
      .ok ⟨idxB.main, HistogramMode.count, 0, 0, 40⟩ :=
  ⟨rfl, by decide,
   histogram_no_window_validation dbB "b" dsB storeB idxB
     HistogramMode.count 0 none none rfl rfl rfl (Or.inl (by decide))⟩

/-- Witness for the C4 amended theorem at an id absent from scenario B's
store. -/
theorem trace_unknown_interval_stream_error_witness :
    List.lookup "zz" storeB = none ∧
    intervalTrace dbB "b" "zz" none none =
      .ok ([], some GenError.keyError) :=
  ⟨rfl, (trace_unknown_interval_stream_error dbB "b" "zz" dsB storeB idxB
    none none 0 40 rfl rfl rfl rfl).1⟩

/-- Witness for the C5 theorem on scenario B's walk. -/
theorem trace_right_emission_at_most_once_witness :
    (traceWalk storeB intT 20 30).1.countP isRightEmission ≤ 1 :=
  (trace_right_emission_at_most_once storeB intT 20 30).1

/-- Witness for the C6 amended theorem: a walk that exits by the
left-boundary break at `Pm`, which carries a parent link to `G`, appends
exactly the `beyondLeft` marker for `G` and then `Pm`'s id. -/
theorem trace_beyondLeft_policy_witness :
    traceWalkAux storeG intT3 20 30 (storeG.length + 1) intT3 (some intT3) =
      ([TraceItem.directId "T"], WalkExit.brokeLeft intPm) ∧
    traceWalk storeG intT3 20 30 =
      ([TraceItem.directId "T", TraceItem.beyondLeft "G" "loc1" 50,
        TraceItem.commaId "Pm"], none) :=
  ⟨by decide,
   (trace_beyondLeft_policy storeG intT3 20 30 [TraceItem.directId "T"]
     (WalkExit.brokeLeft intPm) (by decide)).2.1 intPm ⟨"G", "loc1", 50⟩
     rfl rfl⟩

/-- Witness for the C7 theorem: an omitted `begin` on scenario B's dataset
behaves as the explicit domain minimum 0. -/
theorem window_defaults_witness :
    List.lookup "b" dbB = some dsB ∧
    histogram dbB "b" HistogramMode.count 100 none none none none =
      histogram dbB "b" HistogramMode.count 100 (some 0) none none none :=
  ⟨rfl, (window_defaults dbB "b" "T" dsB HistogramMode.count 100 none none
    none none 1 2 rfl).1⟩

/-- Witness for the C8 theorem at an unknown label. -/
theorem dataset_checks_precede_index_checks_witness :
    List.lookup "nope" dbB = none ∧
    histogram dbB "nope" HistogramMode.count 100 none none none none =
      .error (.http .datasetNotFound) :=
  ⟨rfl, ((dataset_checks_precede_index_checks dbB "nope" "T"
    HistogramMode.count 100 none none none none).1 rfl).1⟩

/-- Witness for the C9 theorem on two databases agreeing at label `"b"`. -/
theorem queries_deterministic_readonly_witness :
    List.lookup "b" dbB = List.lookup "b" dbB2 ∧
    intervals dbB "b" none none = intervals dbB2 "b" none none :=
  ⟨rfl, (queries_deterministic_readonly dbB dbB2 "b" "T" HistogramMode.count
    100 none none none none rfl).2.1⟩

/-- Witness for the C10 theorem on scenario B's dataset over the window
`[0, 40]`, where both records resolve. -/
theorem intervals_stream_wellformed_witness :
    resolveRecords storeB (idxB.main.iterOverlap 0 40) = some [intT, intP] ∧
    strConcat (intervalGenerator storeB idxB 0 40).1 =
      "[" ++ jsonArrayBody ([intT, intP].map jsonDumpsInterval) ++ "]" :=
  ⟨by decide, (intervals_stream_wellformed dbB "b" dsB storeB idxB 0 40
    [intT, intP] rfl rfl rfl (by decide)).2.2.1⟩

end Traveler
